import Mathlib

/-!
# wasmws: the websocket byte-stream adapter

A shallow embedding of the non-browser connection adapter (`websock_other.go`),
the dialer (`dial.go`) and the listener (`wslistener.go`), with the properties
of the specification stated over it.

Conventions of the embedding:

* a Go `[]byte` is a `List Byte`; a call that writes into a caller's buffer
  returns the buffer's new contents;
* a Go `error` is an `Option GoError`, `none` being `nil`;
* the websocket engine (`github.com/coder/websocket`) is outside the
  repository; what it hands back to this package is carried in the state
  (`inbound`) or taken as a parameter;
* a call that waits on the engine for ever is the outcome `blocked`.
-/

namespace Wasmws

/-- One byte of a Go `[]byte`. -/
abbrev Byte := Fin 256

/-- Go `error` values seen by this package: the sentinel of `websock.go`,
`io.EOF`, and any other error, identified by its message. -/
inductive GoError where
  | ErrWebsocketClosed
  | EOF
  | other (msg : String)
  deriving DecidableEq, Repr

/-- Constant `websocket.MessageText` of the engine (`iota + 1`). -/
abbrev MessageText : Nat := 1

/-- Constant `websocket.MessageBinary` of the engine. -/
abbrev MessageBinary : Nat := 2

/-- Go builtin `copy(dst, src)`: the number of bytes copied and the new
contents of `dst`. -/
def copy (dst src : List Byte) : Nat × List Byte :=
  let n := min dst.length src.length
  (n, src.take n ++ dst.drop n)

/-- Standard library `bytes.Reader`: the slice `s` and the read index `i`. -/
structure Reader where
  s : List Byte
  i : Nat
  deriving DecidableEq, Repr

/-- Standard library `bytes.NewReader(b)`. -/
def NewReader (b : List Byte) : Reader := ⟨b, 0⟩

/-- Standard library `(*bytes.Reader).Read(b)`: `(0, io.EOF)` when the index is
at or past the end, else `n = copy(b, r.s[r.i:])` and the index advances by
`n`. Returns `n`, `err`, the new contents of `b` and the reader. -/
def Reader.Read (r : Reader) (b : List Byte) : Nat × Option GoError × List Byte × Reader :=
  if r.i ≥ r.s.length then (0, some GoError.EOF, b, r)
  else
    let c := copy b (r.s.drop r.i)
    (c.1, none, c.2, { r with i := r.i + c.1 })

/-- One return `(tp, buf, err)` of the engine's `(*websocket.Conn).Read`. -/
structure EngineRead where
  tp : Nat
  buf : List Byte
  err : Option GoError
  deriving DecidableEq, Repr

/-- One observable action of the shutdown goroutine installed by `New`. -/
inductive Teardown where
  | wsClose (status : Nat) (reason : String)
  | cleanup (k : Nat)
  deriving DecidableEq, Repr

/-- The `WebSocket` struct of `websock_other.go`. `ctxDone` is whether
`ws.ctx` is cancelled; `inbound` lists what the successive `ws.ws.Read` calls
will return and `sent` what was handed to `ws.ws.Write`; `cleanup` names the
registered cleanup functions; `watcherDone` is whether the shutdown goroutine
has run past `<-ws.ctx.Done()` and `teardown` what it did. -/
structure WebSocket where
  ctxDone : Bool
  URL : String
  inbound : List EngineRead
  sent : List (Nat × List Byte)
  remaining : Option Reader
  cleanup : List Nat
  watcherDone : Bool
  teardown : List Teardown
  deriving DecidableEq, Repr

/-- Outcome of a `WebSocket.Read` call: it returns `(n, err)`, with the new
contents of `buf` and the new state of the connection, or it waits on the
engine for ever. -/
inductive ReadOutcome where
  | returned (n : Nat) (err : Option GoError) (buf : List Byte) (ws : WebSocket)
  | blocked
  deriving DecidableEq, Repr

/-- Lines 145-162 of `websock_other.go`, the part of the loop body after the
carry-over reader `r` is in place: read from the chunk; on `io.EOF` drop the
reader and clear the error, and `continue` (here `next`) if nothing was
copied; otherwise return. -/
def readChunk (ws : WebSocket) (r : Reader) (buf : List Byte) (next : ReadOutcome) :
    ReadOutcome :=
  match r.Read buf with
  | (n, err, buf1, r1) =>
    if err = some GoError.EOF then
      if n < 1 then next
      else ReadOutcome.returned n none buf1 { ws with remaining := none }
    else ReadOutcome.returned n err buf1 { ws with remaining := some r1 }

/-- The `for` loop of `WebSocket.Read` (lines 125-163) entered with
`ws.remaining == nil`, over the returns the engine still has to give: pull
the next message; a text-typed one is skipped; an error is returned with 0
bytes; otherwise the payload becomes the carry-over reader and is read. With
nothing left to pull the call blocks. -/
def readLoop (ws : WebSocket) (buf : List Byte) : List EngineRead → ReadOutcome
  | [] => ReadOutcome.blocked
  | m :: rest =>
    if m.tp = MessageText then readLoop ws buf rest
    else
      match m.err with
      | some e => ReadOutcome.returned 0 (some e) buf { ws with remaining := none, inbound := rest }
      | none => readChunk { ws with inbound := rest } (NewReader m.buf) buf (readLoop ws buf rest)

/-- Method `WebSocket.Read` (lines 108-164): the zero-length check, the closed
check, then the loop; when a carry-over reader is held the first pass starts
at the chunk read. -/
def WebSocket.Read (ws : WebSocket) (buf : List Byte) : ReadOutcome :=
  if buf.length < 1 then ReadOutcome.returned 0 none buf ws
  else if ws.ctxDone then ReadOutcome.returned 0 (some GoError.ErrWebsocketClosed) buf ws
  else
    match ws.remaining with
    | none => readLoop ws buf ws.inbound
    | some r => readChunk ws r buf (readLoop { ws with remaining := none } buf ws.inbound)

/-- Method `WebSocket.Close` (lines 80-86): cancel the context, return nil. -/
def WebSocket.Close (ws : WebSocket) : Option GoError × WebSocket :=
  (none, { ws with ctxDone := true })

/-- What one returned `WebSocket.Read` call shows its caller. -/
structure ReadObs where
  n : Nat
  err : Option GoError
  buf : List Byte
  deriving DecidableEq, Repr

/-- The bytes a returned call delivered: `buf[:n]`. -/
def ReadObs.bytes (o : ReadObs) : List Byte := o.buf.take o.n

/-- A sequence of `WebSocket.Read` calls, one per buffer, on one connection. A call
that blocks is recorded as `none` and ends the sequence. -/
def readCalls : WebSocket → List (List Byte) → List (Option ReadObs)
  | _, [] => []
  | ws, b :: bs =>
    match WebSocket.Read ws b with
    | ReadOutcome.blocked => [none]
    | ReadOutcome.returned n err b1 ws1 => some ⟨n, err, b1⟩ :: readCalls ws1 bs

/-- A connection as `New` returns it for `URL`, the engine having `inbound`
to deliver. -/
def newWebSocket (URL : String) (inbound : List EngineRead) : WebSocket :=
  { ctxDone := false, URL := URL, inbound := inbound, sent := [], remaining := none,
    cleanup := [], watcherDone := false, teardown := [] }

/-- A binary message with payload `m`, as the engine's `Read` returns it. -/
def binaryMessage (m : List Byte) : EngineRead := ⟨MessageBinary, m, none⟩

/-- A text message with payload `t`, as the engine's `Read` returns it. -/
def textMessage (t : List Byte) : EngineRead := ⟨MessageText, t, none⟩

/-- All bytes delivered by the returned calls of a sequence, in call order. -/
def delivered : List (Option ReadObs) → List Byte
  | [] => []
  | none :: tr => delivered tr
  | some o :: tr => o.bytes ++ delivered tr

/-- The connection with the text-typed engine returns removed from what the
engine still has to deliver. -/
def dropText (ws : WebSocket) : WebSocket :=
  { ws with inbound := ws.inbound.filter (fun m => decide (m.tp ≠ MessageText)) }

/-- Apply `f` to the connection state a returned call leaves. -/
def ReadOutcome.mapWs (f : WebSocket → WebSocket) : ReadOutcome → ReadOutcome
  | ReadOutcome.blocked => ReadOutcome.blocked
  | ReadOutcome.returned n err b ws => ReadOutcome.returned n err b (f ws)

/-- A call that returned `n` with buffer contents `b`, made with buffer `buf`
when `done` had been delivered of the message stream `msgs`, took its bytes
from one message: `done` is whole messages `pre` plus the part `a` of the
message `m`, and `b[:n]` is the next part of `m`. -/
def FromOneMessage (msgs : List (List Byte)) (done buf : List Byte) (n : Nat)
    (b : List Byte) : Prop :=
  ∃ pre m suf a c, msgs = pre ++ m :: suf ∧ m = a ++ b.take n ++ c ∧ done = pre.flatten ++ a ∧
    1 ≤ n ∧ n ≤ min buf.length (m.length - a.length) ∧ (b.take n).length = n ∧
    b = b.take n ++ buf.drop n

/-- An open connection that has delivered exactly `done` of the binary
message stream `msgs`: either no carry-over reader is held and the engine
still has a suffix of `msgs` to deliver, or the reader holds message `m` at
index `i` and the engine has what follows `m`. -/
def AtOffset (msgs : List (List Byte)) (done : List Byte) (ws : WebSocket) : Prop :=
  ws.ctxDone = false ∧
  ((ws.remaining = none ∧ ∃ pre rest, msgs = pre ++ rest ∧
      ws.inbound = rest.map binaryMessage ∧ done = pre.flatten) ∨
   (∃ m i pre rest, ws.remaining = some ⟨m, i⟩ ∧ i ≤ m.length ∧ msgs = pre ++ m :: rest ∧
      ws.inbound = rest.map binaryMessage ∧ done = pre.flatten ++ m.take i))

/-- Method `WebSocket.Write` (lines 98-105). `wsWrite` is the engine's
`(*websocket.Conn).Write`: from the state of the context, the message type
and the payload, the error it returns. The message handed to the engine is
appended to `sent`. -/
def WebSocket.Write (wsWrite : Bool → Nat → List Byte → Option GoError) (ws : WebSocket)
    (buf : List Byte) : Nat × Option GoError × WebSocket :=
  let ws1 := { ws with sent := ws.sent ++ [(MessageBinary, buf)] }
  match wsWrite ws.ctxDone MessageBinary buf with
  | some err => (0, some err, ws1)
  | none => (buf.length, none, ws1)

/-- Constant `websocket.StatusNormalClosure` of the engine. -/
abbrev StatusNormalClosure : Nat := 1000

/-- Constant `websocket.StatusBadGateway` of the engine. -/
abbrev StatusBadGateway : Nat := 1014

/-- What the shutdown goroutine of `New` (lines 64-74) does once
`<-ws.ctx.Done()` has returned: close the handle with the normal-closure
status, then run the cleanup functions in order. -/
def shutdownActions (ws : WebSocket) : List Teardown :=
  Teardown.wsClose StatusNormalClosure "Go context closed" :: ws.cleanup.map Teardown.cleanup

/-- One scheduling turn of the shutdown goroutine of `New` (lines 64-74): it
has finished, or it is still waiting on `<-ws.ctx.Done()`, or the context is
cancelled and it runs to its end. -/
def shutdownWatcher (ws : WebSocket) : WebSocket :=
  if ws.watcherDone then ws
  else if ws.ctxDone then
    { ws with watcherDone := true, teardown := ws.teardown ++ shutdownActions ws }
  else ws

/-- What can happen next on a connection: a caller's `Close`, or a turn of the
shutdown goroutine. -/
inductive ConnEvent where
  | closeCall
  | watcherTurn
  deriving DecidableEq, Repr

/-- Run a schedule of `Close` calls and goroutine turns on a connection; the
errors returned by the `Close` calls, in order, and the connection left. -/
def runConn : WebSocket → List ConnEvent → List (Option GoError) × WebSocket
  | ws, [] => ([], ws)
  | ws, ConnEvent.closeCall :: evs =>
    ((WebSocket.Close ws).1 :: (runConn (WebSocket.Close ws).2 evs).1,
      (runConn (WebSocket.Close ws).2 evs).2)
  | ws, ConnEvent.watcherTurn :: evs => runConn (shutdownWatcher ws) evs

/-! ### dial.go -/

/-- A `context.Context` handed to a dialer, by name. -/
abbrev Context := Nat

/-- Result of `context.Background()`. -/
abbrev Background : Context := 0

/-- A `DialOption` of `options.go`, by the HTTP client it injects. -/
abbrev DialOption := Nat

/-- A Go `net.Conn` interface value holding this package's connection: the nil
interface, or a `*WebSocket` (a pointer that may itself be nil). -/
inductive NetConn where
  | nil
  | ofWebSocket (p : Option WebSocket)
  deriving DecidableEq, Repr

/-- What a dial call returns, with the calls to `New` it made. -/
structure DialResult where
  conn : NetConn
  err : Option GoError
  newCalls : List (Context × String × List DialOption)
  deriving DecidableEq, Repr

/-- The `Dialer` struct of `dial.go`. -/
structure Dialer where
  opts : List DialOption
  deriving DecidableEq, Repr

/-- Standard library `strings.HasPrefix(s, p)`. -/
def HasPrefix (s p : String) : Bool := p.toList.isPrefixOf s.toList

/-- Message of the invalid-network error of `Dialer.DialContext` (line 56);
`quote` is the `%q` verb of `fmt`. -/
def invalidNetwork (quote : String → String) (network : String) : String :=
  "Invalid network: " ++ quote network ++
    "; Details: Only \"websocket\" network is supported"

/-- Message of the invalid-address error of `Dialer.DialContext` (line 59). -/
def invalidAddress : String :=
  "Invalid address: websocket address should be a websocket URL that starts with ws:// or wss://"

/-- Method `Dialer.DialContext` (lines 54-62). `quote` is the `%q` verb of
`fmt` and `New` the constructor of `websock_other.go`, called with the dial
context, the address and the dialer's options; its `*WebSocket` result is
returned as a `net.Conn`. -/
def Dialer.DialContext (quote : String → String)
    (New : Context → String → List DialOption → Option WebSocket × Option GoError)
    (d : Dialer) (ctx : Context) (network address : String) : DialResult :=
  if network ≠ "websocket" then
    ⟨NetConn.nil, some (GoError.other (invalidNetwork quote network)), []⟩
  else if !(HasPrefix address "ws://" || HasPrefix address "wss://") then
    ⟨NetConn.nil, some (GoError.other invalidAddress), []⟩
  else
    ⟨NetConn.ofWebSocket (New ctx address d.opts).1, (New ctx address d.opts).2,
      [(ctx, address, d.opts)]⟩

/-- Method `Dialer.Dial` (lines 45-47). -/
def Dialer.Dial (quote : String → String)
    (New : Context → String → List DialOption → Option WebSocket × Option GoError)
    (d : Dialer) (network address : String) : DialResult :=
  d.DialContext quote New Background network address

/-- Function `DialContext` (lines 22-24): the zero `Dialer`. -/
def DialContext (quote : String → String)
    (New : Context → String → List DialOption → Option WebSocket × Option GoError)
    (ctx : Context) (network address : String) : DialResult :=
  Dialer.DialContext quote New ⟨[]⟩ ctx network address

/-- Function `Dial` (lines 13-15). -/
def Dial (quote : String → String)
    (New : Context → String → List DialOption → Option WebSocket × Option GoError)
    (network address : String) : DialResult :=
  DialContext quote New Background network address

/-- Function `GRPCDialer` (lines 30-32). -/
def GRPCDialer (quote : String → String)
    (New : Context → String → List DialOption → Option WebSocket × Option GoError)
    (ctx : Context) (address : String) : DialResult :=
  DialContext quote New ctx "websocket" address

/-- Function `NewDialer` (lines 35-37). -/
def NewDialer (opts : List DialOption) : Dialer := ⟨opts⟩

/-! ### wslistener.go -/

/-- An engine handle `*websocket.Conn` produced by an upgrade, by name. -/
abbrev Handle := Nat

/-- The adapter the engine's `websocket.NetConn` makes: the handle it wraps
(a pointer, `none` when nil) and the message type it writes. -/
structure Conn where
  c : Option Handle
  msgType : Nat
  deriving DecidableEq, Repr

/-- The engine's `websocket.NetConn(ctx, c, msgType)`. It dereferences the
handle `c` before building the adapter, so a nil handle is a nil-pointer panic
(`none`) and no adapter comes back. -/
def websocketNetConn (c : Option Handle) (msgType : Nat) : Option Conn :=
  match c with
  | none => none
  | some h => some ⟨some h, msgType⟩

/-- What a listener does that can be seen from outside. -/
inductive ListenerEffect where
  | httpError (msg : String) (code : Nat)
  | logShutdownWarning
  | logAcceptError (remoteAddr : String) (err : GoError)
  | wsClose (ws : Option Handle) (status : Nat)
  | connClose (conn : Conn)
  deriving DecidableEq, Repr

/-- The `WebSockListener` struct: whether `wsl.ctx` is cancelled, the contents
of the buffered channel `acceptCh` (oldest first), whether the drain goroutine
of `NewWebSocketListener` has finished, and the effects so far. `parentErr` is
the error text of the parent context when it is the parent that ended
`wsl.ctx`, and `none` when the context is live or was cancelled by `Close`. -/
structure WebSockListener where
  ctxDone : Bool
  acceptCh : List Conn
  drainDone : Bool
  effects : List ListenerEffect
  parentErr : Option String := none
  deriving DecidableEq, Repr

/-- Text of `wsl.ctx.Err()` on a cancelled context: the parent's error when the
parent ended it, else that of `context.Canceled`. -/
def WebSockListener.ctxErr (wsl : WebSockListener) : String :=
  wsl.parentErr.getD "context canceled"

/-- The context handed to `NewWebSocketListener` ends with error text `err`
(`context canceled`, `context deadline exceeded`): `wsl.ctx`, derived from it
at line 36, is done with that error unless it was cancelled before. -/
def parentDone (wsl : WebSockListener) (err : String) : WebSockListener :=
  if wsl.ctxDone then wsl else { wsl with ctxDone := true, parentErr := some err }

/-- Capacity of `acceptCh`: `make(chan net.Conn, 8)` (line 40). -/
abbrev acceptChCap : Nat := 8

/-- Function `NewWebSocketListener` (lines 35-55) under a live context. -/
def NewWebSocketListener : WebSockListener :=
  { ctxDone := false, acceptCh := [], drainDone := false, effects := [] }

/-- One scheduling turn of the drain goroutine (lines 42-53): it has finished,
or it still waits on `<-ctx.Done()`, or it closes every queued connection and
stops on the first empty poll. -/
def drainTask (wsl : WebSockListener) : WebSockListener :=
  if wsl.drainDone then wsl
  else if wsl.ctxDone then
    { wsl with acceptCh := [], drainDone := true,
               effects := wsl.effects ++ wsl.acceptCh.map ListenerEffect.connClose }
  else wsl

/-- Method `WebSockListener.Close` (lines 95-98). -/
def WebSockListener.Close (wsl : WebSockListener) : Option GoError × WebSockListener :=
  (none, { wsl with ctxDone := true })

/-- An inbound request as `ServeHTTP` sees it: `req.RemoteAddr`, whether
`req.Context()` is done when the handler reaches its `select`, and what
`websocket.Accept` returns for it (`(nil, err)` when the upgrade fails). -/
structure Request where
  RemoteAddr : String
  ctxDone : Bool
  upgrade : Option Handle × Option GoError
  deriving DecidableEq, Repr

/-- Where a handler stands after lines 60-73 of `ServeHTTP`: it has returned,
or it has panicked in `websocket.NetConn`, or it holds `ws` and `conn` and is
at the `select` of line 74. -/
inductive Upgrade where
  | refused (wsl : WebSockListener)
  | panicked (wsl : WebSockListener)
  | pending (wsl : WebSockListener) (ws : Option Handle) (conn : Conn)
  deriving DecidableEq, Repr

/-- Lines 60-73 of `ServeHTTP`: the shutdown check (503 and return), the
upgrade with its error logged (and no return after the log), and the adapter
made from the handle by `websocket.NetConn`, which panics on the nil handle
of a failed upgrade. -/
def serveUpgrade (wsl : WebSockListener) (req : Request) : Upgrade :=
  if wsl.ctxDone then
    Upgrade.refused { wsl with effects := wsl.effects ++
      [ListenerEffect.httpError "503: Service is shutdown" 503,
       ListenerEffect.logShutdownWarning] }
  else
    let ws := req.upgrade.1
    let wsl1 : WebSockListener :=
      match req.upgrade.2 with
      | some err =>
        { wsl with effects := wsl.effects ++ [ListenerEffect.logAcceptError req.RemoteAddr err] }
      | none => wsl
    match websocketNetConn ws MessageBinary with
    | none => Upgrade.panicked wsl1
    | some conn => Upgrade.pending wsl1 ws conn

/-- A case of the `select` of lines 74-80. -/
inductive SelectCase where
  | send
  | listenerDone
  | requestDone
  deriving DecidableEq, Repr

/-- The cases of the `select` of lines 74-80 that can proceed: the send when
the channel has room, the two receives when their context is done. -/
def readyCases (wsl : WebSockListener) (reqDone : Bool) : List SelectCase :=
  (if wsl.acceptCh.length < acceptChCap then [SelectCase.send] else []) ++
  (if wsl.ctxDone then [SelectCase.listenerDone] else []) ++
  (if reqDone then [SelectCase.requestDone] else [])

/-- The `select` of lines 74-80. Go takes one of the cases that can proceed,
chosen at random: here the case numbered `pick`. With no case able to proceed
the handler waits (`none`). -/
def serveEnqueue (wsl : WebSockListener) (reqDone : Bool) (pick : Nat) (ws : Option Handle)
    (conn : Conn) : Option WebSockListener :=
  match (readyCases wsl reqDone)[pick % (readyCases wsl reqDone).length]? with
  | none => none
  | some SelectCase.send => some { wsl with acceptCh := wsl.acceptCh ++ [conn] }
  | some SelectCase.listenerDone =>
    some { wsl with effects := wsl.effects ++ [ListenerEffect.wsClose ws StatusBadGateway] }
  | some SelectCase.requestDone =>
    some { wsl with effects := wsl.effects ++ [ListenerEffect.wsClose ws StatusBadGateway] }

/-- How a `ServeHTTP` call ends: it returns, it panics (the HTTP server
recovers the panic and drops the request), or it waits in its `select`. -/
inductive ServeOutcome where
  | returned (wsl : WebSockListener)
  | panicked (wsl : WebSockListener)
  | waiting
  deriving DecidableEq, Repr

/-- Method `WebSockListener.ServeHTTP` (lines 59-81), run without
interruption. -/
def WebSockListener.ServeHTTP (wsl : WebSockListener) (req : Request) (pick : Nat) :
    ServeOutcome :=
  match serveUpgrade wsl req with
  | Upgrade.refused wsl1 => ServeOutcome.returned wsl1
  | Upgrade.panicked wsl1 => ServeOutcome.panicked wsl1
  | Upgrade.pending wsl1 ws conn =>
    match serveEnqueue wsl1 req.ctxDone pick ws conn with
    | none => ServeOutcome.waiting
    | some wsl2 => ServeOutcome.returned wsl2

/-- Method `WebSockListener.Accept` (lines 85-92): a `select` between a
receive from `acceptCh` and `<-wsl.ctx.Done()`, the case numbered `pick` of
those that can proceed; `none` when it waits. The error wraps `wsl.ctx.Err()`
under `"Listener closed; Details: "`. -/
def WebSockListener.Accept (wsl : WebSockListener) (pick : Nat) :
    Option ((Option Conn × Option GoError) × WebSockListener) :=
  match wsl.acceptCh, wsl.ctxDone with
  | [], false => none
  | [], true =>
    some ((none, some (GoError.other ("Listener closed; Details: " ++ wsl.ctxErr))), wsl)
  | conn :: rest, false => some ((some conn, none), { wsl with acceptCh := rest })
  | conn :: rest, true =>
    if pick % 2 = 0 then some ((some conn, none), { wsl with acceptCh := rest })
    else some ((none, some (GoError.other ("Listener closed; Details: " ++ wsl.ctxErr))), wsl)

/-! ## WebSocket.Read: zero-length buffers, closed connections, returned counts -/

theorem copy_fst_le (dst src : List Byte) : (copy dst src).1 ≤ dst.length := by
  simp [copy]

theorem copy_fst_pos (dst src : List Byte) (hd : 0 < dst.length) (hs : 0 < src.length) :
    0 < (copy dst src).1 := by
  simp [copy]; omega

theorem readChunk_count (ws : WebSocket) (r : Reader) (buf : List Byte) (next : ReadOutcome)
    (hb : 0 < buf.length)
    (hnext : ∀ n err b ws1, next = ReadOutcome.returned n err b ws1 →
      (err = none → 1 ≤ n ∧ n ≤ buf.length))
    (n : Nat) (err : Option GoError) (b : List Byte) (ws1 : WebSocket)
    (h : readChunk ws r buf next = ReadOutcome.returned n err b ws1) :
    err = none → 1 ≤ n ∧ n ≤ buf.length := by
  unfold readChunk Reader.Read at h
  by_cases hi : r.i ≥ r.s.length
  · simp [hi] at h
    exact hnext n err b ws1 h
  · simp [hi] at h
    obtain ⟨hn, _, _, _⟩ := h
    intro _
    subst hn
    refine ⟨copy_fst_pos _ _ hb ?_, copy_fst_le _ _⟩
    simp; omega

theorem readLoop_count (ws : WebSocket) (buf : List Byte) (hb : 0 < buf.length)
    (l : List EngineRead) :
    ∀ n err b ws1, readLoop ws buf l = ReadOutcome.returned n err b ws1 →
      (err = none → 1 ≤ n ∧ n ≤ buf.length) := by
  induction l with
  | nil => intro n err b ws1 h; simp [readLoop] at h
  | cons m rest ih =>
    intro n err b ws1 h
    unfold readLoop at h
    by_cases ht : m.tp = MessageText
    · simp [ht] at h; exact ih n err b ws1 h
    · simp only [ht, if_false] at h
      cases he : m.err with
      | some e =>
        simp [he] at h
        intro hnone
        rw [← h.2.1] at hnone
        cases hnone
      | none =>
        simp only [he] at h
        exact readChunk_count _ _ buf _ hb ih n err b ws1 h

/-- C4: for every connection state, `WebSocket.Read` with a zero-length buffer returns
`(0, nil)` and leaves the buffer and the whole connection state (carry-over
reader, its position, the engine's pending messages) as they were. -/
theorem Read_zero_length (ws : WebSocket) :
    WebSocket.Read ws [] = ReadOutcome.returned 0 none [] ws := by
  simp [WebSocket.Read]

/-- C5: for a non-empty buffer, whatever the connection state and the engine's
message sequence, a `WebSocket.Read` that returns a nil error returns a count with
`1 ≤ n ≤ len(buf)`; so a returned count of 0 always comes with a non-nil
error. -/
theorem Read_count (ws : WebSocket) (buf : List Byte) (hb : 0 < buf.length)
    (n : Nat) (err : Option GoError) (b : List Byte) (ws1 : WebSocket)
    (h : WebSocket.Read ws buf = ReadOutcome.returned n err b ws1) :
    (err = none → 1 ≤ n ∧ n ≤ buf.length) ∧ (n = 0 → err ≠ none) := by
  have key : err = none → 1 ≤ n ∧ n ≤ buf.length := by
    unfold WebSocket.Read at h
    have hb1 : ¬ buf.length < 1 := by omega
    simp only [hb1, if_false] at h
    by_cases hc : ws.ctxDone = true
    · simp [hc] at h
      intro hnone
      rw [← h.2.1] at hnone
      cases hnone
    · simp only [hc] at h
      cases hr : ws.remaining with
      | none =>
        simp only [hr] at h
        exact readLoop_count ws buf hb _ n err b ws1 h
      | some r =>
        simp only [hr] at h
        exact readChunk_count ws r buf _ hb (readLoop_count _ buf hb _) n err b ws1 h
  refine ⟨key, ?_⟩
  intro h0 hnone
  have := key hnone
  omega

/-- C5 witness: an empty binary message, a text message, then a one-byte
binary message, read with a two-byte buffer. -/
theorem Read_count_witness :
    0 < [(0 : Byte), 0].length ∧
    WebSocket.Read (newWebSocket "ws://example/echo" [binaryMessage [], textMessage [7], binaryMessage [9]])
        [0, 0] =
      ReadOutcome.returned 1 none [9, 0]
        { newWebSocket "ws://example/echo" [] with remaining := some ⟨[9], 1⟩ } ∧
    ((none : Option GoError) = none → 1 ≤ 1 ∧ 1 ≤ [(0 : Byte), 0].length) ∧
    (1 = 0 → (none : Option GoError) ≠ none) :=
  ⟨by decide, by decide,
    Read_count (newWebSocket "ws://example/echo" [binaryMessage [], textMessage [7], binaryMessage [9]])
      [0, 0] (by decide) 1 none [9, 0]
      { newWebSocket "ws://example/echo" [] with remaining := some ⟨[9], 1⟩ } (by decide)⟩

/-! ## WebSocket.Read after WebSocket.Close -/

theorem Read_closed (ws : WebSocket) (hc : ws.ctxDone = true) (buf : List Byte)
    (hb : 0 < buf.length) :
    WebSocket.Read ws buf = ReadOutcome.returned 0 (some GoError.ErrWebsocketClosed) buf ws := by
  have hb1 : ¬ buf.length < 1 := by omega
  simp [WebSocket.Read, hb1, hc]

theorem readCalls_closed (ws : WebSocket) (hc : ws.ctxDone = true) (bufs : List (List Byte))
    (hb : ∀ b ∈ bufs, 0 < b.length) :
    readCalls ws bufs =
      bufs.map (fun b => some ⟨0, some GoError.ErrWebsocketClosed, b⟩) := by
  induction bufs with
  | nil => rfl
  | cons b bs ih =>
    have h1 := Read_closed ws hc b (hb b (by simp))
    simp only [readCalls, h1, List.map_cons]
    rw [ih (fun c hm => hb c (by simp [hm]))]

/-- C3 as stated fails: on a closed connection a `WebSocket.Read` with a zero-length
buffer returns `(0, nil)`, not `ErrWebsocketClosed`. -/
theorem closed_Read_zero_length_buffer :
    WebSocket.Read (WebSocket.Close (newWebSocket "ws://example/echo" [binaryMessage [1]])).2 [] =
      ReadOutcome.returned 0 none [] (WebSocket.Close (newWebSocket "ws://example/echo" [binaryMessage [1]])).2 ∧
    ¬ ∃ b ws1, WebSocket.Read (WebSocket.Close (newWebSocket "ws://example/echo" [binaryMessage [1]])).2 [] =
      ReadOutcome.returned 0 (some GoError.ErrWebsocketClosed) b ws1 := by
  constructor
  · decide
  · rintro ⟨b, ws1, h⟩
    simp [WebSocket.Read] at h

/-- C3 amended: after `WebSocket.Close`, every `WebSocket.Read` with a non-empty buffer, whatever
carry-over reader is held, returns `(0, ErrWebsocketClosed)` and leaves the
buffer and the connection, the engine's pending messages included, as they
were; so does every call of a sequence of such calls. -/
theorem Read_after_Close (ws : WebSocket) :
    (∀ buf : List Byte, 0 < buf.length →
      WebSocket.Read (WebSocket.Close ws).2 buf =
        ReadOutcome.returned 0 (some GoError.ErrWebsocketClosed) buf (WebSocket.Close ws).2) ∧
    (∀ bufs : List (List Byte), (∀ b ∈ bufs, 0 < b.length) →
      readCalls (WebSocket.Close ws).2 bufs =
        bufs.map (fun b => some ⟨0, some GoError.ErrWebsocketClosed, b⟩)) :=
  ⟨fun buf hb => Read_closed _ rfl buf hb, fun bufs hb => readCalls_closed _ rfl bufs hb⟩

/-- C3 witness: a connection holding a partly read message and a pending one,
closed, then read with a one-byte buffer. -/
theorem Read_after_Close_witness :
    0 < [(0 : Byte)].length ∧
    WebSocket.Read (WebSocket.Close { newWebSocket "ws://example/echo" [binaryMessage [5]] with
        remaining := some ⟨[1, 2], 1⟩ }).2 [0] =
      ReadOutcome.returned 0 (some GoError.ErrWebsocketClosed) [0]
        (WebSocket.Close { newWebSocket "ws://example/echo" [binaryMessage [5]] with
          remaining := some ⟨[1, 2], 1⟩ }).2 :=
  ⟨by decide,
    (Read_after_Close { newWebSocket "ws://example/echo" [binaryMessage [5]] with
        remaining := some ⟨[1, 2], 1⟩ }).1 [0] (by decide)⟩

/-! ## WebSocket.Read: messages to byte stream -/

theorem readChunk_exhausted (ws : WebSocket) (m : List Byte) (i : Nat) (buf : List Byte)
    (next : ReadOutcome) (hi : m.length ≤ i) :
    readChunk ws ⟨m, i⟩ buf next = next := by
  simp [readChunk, Reader.Read, hi]

theorem readChunk_unread (ws : WebSocket) (m : List Byte) (i : Nat) (buf : List Byte)
    (next : ReadOutcome) (hi : i < m.length) :
    readChunk ws ⟨m, i⟩ buf next =
      ReadOutcome.returned (min buf.length (m.length - i)) none
        ((m.drop i).take (min buf.length (m.length - i)) ++
          buf.drop (min buf.length (m.length - i)))
        { ws with remaining := some ⟨m, i + min buf.length (m.length - i)⟩ } := by
  have h : ¬ m.length ≤ i := by omega
  simp [readChunk, Reader.Read, h, copy]

theorem take_chunk (m buf : List Byte) (i n : Nat) (hn : n ≤ m.length - i) :
    ((m.drop i).take n ++ buf.drop n).take n = (m.drop i).take n := by
  have hl : ((m.drop i).take n).length = n := by simp; omega
  rw [List.take_append_of_le_length (by omega)]
  rw [List.take_of_length_le (by omega)]

theorem split_chunk (m : List Byte) (i n : Nat) :
    m = m.take i ++ (m.drop i).take n ++ m.drop (i + n) := by
  rw [List.append_assoc, ← List.drop_drop, List.take_append_drop, List.take_append_drop]

theorem take_add_chunk (m : List Byte) (i n : Nat) :
    m.take (i + n) = m.take i ++ (m.drop i).take n := by
  rw [List.take_add]

theorem readLoop_binary (msgs : List (List Byte)) (ws : WebSocket) (hc : ws.ctxDone = false)
    (buf : List Byte) (hb : 0 < buf.length) :
    ∀ (rest pre : List (List Byte)), msgs = pre ++ rest →
      (readLoop ws buf (rest.map binaryMessage) = ReadOutcome.blocked ∧
        pre.flatten = msgs.flatten) ∨
      ∃ n b ws1, readLoop ws buf (rest.map binaryMessage) = ReadOutcome.returned n none b ws1 ∧
        AtOffset msgs (pre.flatten ++ b.take n) ws1 ∧
        FromOneMessage msgs pre.flatten buf n b := by
  intro rest
  induction rest with
  | nil => intro pre hm; left; exact ⟨rfl, by simp [hm]⟩
  | cons m rest ih =>
    intro pre hm
    have hstep : readLoop ws buf ((m :: rest).map binaryMessage) =
        readChunk { ws with inbound := rest.map binaryMessage } ⟨m, 0⟩ buf
          (readLoop ws buf (rest.map binaryMessage)) := by
      simp [readLoop, binaryMessage, NewReader]
    rw [hstep]
    by_cases h0 : m.length ≤ 0
    · rw [readChunk_exhausted _ _ _ _ _ h0]
      have hnil : m = [] := List.length_eq_zero.mp (by omega)
      have := ih (pre ++ [m]) (by simp [hm])
      simpa [hnil] using this
    · have hpos : 0 < m.length := by omega
      rw [readChunk_unread _ _ _ _ _ hpos]
      right
      have hn : min buf.length (m.length - 0) ≤ m.length - 0 := Nat.min_le_right _ _
      refine ⟨_, _, _, rfl, ?_, ?_⟩
      · rw [take_chunk m buf 0 _ hn]
        refine ⟨hc, Or.inr ⟨m, 0 + min buf.length (m.length - 0), pre, rest, rfl, ?_, hm, rfl, ?_⟩⟩
        · simp
        · simp
      · unfold FromOneMessage
        rw [take_chunk m buf 0 _ hn]
        refine ⟨pre, m, rest, [], m.drop (0 + min buf.length (m.length - 0)), hm, ?_, by simp,
          ?_, ?_, ?_, rfl⟩
        · simp
        · simp; omega
        · simp
        · simp

theorem Read_step (msgs : List (List Byte)) (done : List Byte) (ws : WebSocket)
    (hinv : AtOffset msgs done ws) (buf : List Byte) (hb : 0 < buf.length) :
    (WebSocket.Read ws buf = ReadOutcome.blocked ∧ done = msgs.flatten) ∨
    ∃ n b ws1, WebSocket.Read ws buf = ReadOutcome.returned n none b ws1 ∧
      AtOffset msgs (done ++ b.take n) ws1 ∧ FromOneMessage msgs done buf n b := by
  obtain ⟨hc, hcase⟩ := hinv
  have hb1 : ¬ buf.length < 1 := by omega
  rcases hcase with ⟨hr, pre, rest, hm, hin, hd⟩ | ⟨m, i, pre, rest, hr, hi, hm, hin, hd⟩
  · have hR : WebSocket.Read ws buf = readLoop ws buf (rest.map binaryMessage) := by
      simp [WebSocket.Read, hb1, hc, hr, hin]
    rw [hR, hd]
    exact readLoop_binary msgs ws hc buf hb rest pre hm
  · have hR : WebSocket.Read ws buf = readChunk ws ⟨m, i⟩ buf
        (readLoop { ws with remaining := none } buf (rest.map binaryMessage)) := by
      simp [WebSocket.Read, hb1, hc, hr, hin]
    rw [hR]
    by_cases hlt : i < m.length
    · rw [readChunk_unread _ _ _ _ _ hlt]
      right
      have hn : min buf.length (m.length - i) ≤ m.length - i := Nat.min_le_right _ _
      refine ⟨_, _, _, rfl, ?_, ?_⟩
      · rw [take_chunk m buf i _ hn]
        refine ⟨hc, Or.inr ⟨m, i + min buf.length (m.length - i), pre, rest, rfl, ?_, hm, hin, ?_⟩⟩
        · omega
        · rw [hd, take_add_chunk, List.append_assoc]
      · unfold FromOneMessage
        rw [take_chunk m buf i _ hn]
        refine ⟨pre, m, rest, m.take i, m.drop (i + min buf.length (m.length - i)), hm,
          split_chunk m i _, hd, ?_, ?_, ?_, rfl⟩
        · omega
        · simp only [List.length_take]; omega
        · simp
    · rw [readChunk_exhausted _ _ _ _ _ (by omega)]
      have hfull : m.take i = m := List.take_of_length_le (by omega)
      have hd2 : done = (pre ++ [m]).flatten := by simp [hd, hfull]
      rw [hd2]
      exact readLoop_binary msgs { ws with remaining := none } hc buf hb rest (pre ++ [m])
        (by simp [hm])

theorem AtOffset_isPrefix (msgs : List (List Byte)) (done : List Byte) (ws : WebSocket)
    (h : AtOffset msgs done ws) : done <+: msgs.flatten := by
  obtain ⟨_, hcase⟩ := h
  rcases hcase with ⟨_, pre, rest, hm, _, hd⟩ | ⟨m, i, pre, rest, _, _, hm, _, hd⟩
  · refine ⟨rest.flatten, ?_⟩
    simp [hm, hd]
  · refine ⟨m.drop i ++ rest.flatten, ?_⟩
    rw [hm, hd]
    simp only [List.flatten_append, List.flatten_cons, List.append_assoc]
    rw [← List.append_assoc (m.take i), List.take_append_drop]

theorem readCalls_stream (msgs : List (List Byte)) :
    ∀ (bufs : List (List Byte)) (done : List Byte) (ws : WebSocket),
      AtOffset msgs done ws → (∀ b ∈ bufs, 0 < b.length) →
      (∀ i o, (readCalls ws bufs)[i]? = some (some o) →
        o.err = none ∧ ∃ buf, bufs[i]? = some buf ∧
          FromOneMessage msgs (done ++ delivered ((readCalls ws bufs).take i)) buf o.n o.buf) ∧
      (done ++ delivered (readCalls ws bufs)) <+: msgs.flatten ∧
      (none ∈ readCalls ws bufs → done ++ delivered (readCalls ws bufs) = msgs.flatten) := by
  intro bufs
  induction bufs with
  | nil =>
    intro done ws hinv _
    refine ⟨?_, ?_, ?_⟩
    · intro i o h; simp [readCalls] at h
    · simpa [readCalls, delivered] using AtOffset_isPrefix msgs done ws hinv
    · intro h; simp [readCalls] at h
  | cons b bs ih =>
    intro done ws hinv hb
    have hb0 : 0 < b.length := hb b (by simp)
    have hbs : ∀ c ∈ bs, 0 < c.length := fun c hc => hb c (by simp [hc])
    rcases Read_step msgs done ws hinv b hb0 with ⟨hblk, hall⟩ | ⟨n, b1, ws1, hret, hinv1, hone⟩
    · have htr : readCalls ws (b :: bs) = [none] := by simp [readCalls, hblk]
      rw [htr]
      refine ⟨?_, ?_, ?_⟩
      · intro i o h
        cases i with
        | zero => simp at h
        | succ k => simp at h
      · simpa [delivered] using AtOffset_isPrefix msgs done ws hinv
      · intro _; simpa [delivered] using hall
    · have htr : readCalls ws (b :: bs) = some ⟨n, none, b1⟩ :: readCalls ws1 bs := by
        simp [readCalls, hret]
      rw [htr]
      obtain ⟨ih1, ih2, ih3⟩ := ih (done ++ b1.take n) ws1 hinv1 hbs
      refine ⟨?_, ?_, ?_⟩
      · intro i o h
        cases i with
        | zero =>
          simp at h
          subst h
          refine ⟨rfl, b, by simp, ?_⟩
          simpa [delivered] using hone
        | succ k =>
          simp only [List.getElem?_cons_succ] at h
          obtain ⟨he, buf, hbuf, hfrom⟩ := ih1 k o h
          refine ⟨he, buf, by simpa using hbuf, ?_⟩
          simpa [delivered, ReadObs.bytes, List.append_assoc] using hfrom
      · simpa [delivered, ReadObs.bytes, List.append_assoc] using ih2
      · intro hmem
        have hmem2 : none ∈ readCalls ws1 bs := by simpa using hmem
        simpa [delivered, ReadObs.bytes, List.append_assoc] using ih3 hmem2

theorem newWebSocket_AtOffset (URL : String) (msgs : List (List Byte)) :
    AtOffset msgs [] (newWebSocket URL (msgs.map binaryMessage)) :=
  ⟨rfl, Or.inl ⟨rfl, [], msgs, rfl, rfl, rfl⟩⟩

/-- C1: on a fresh open connection whose engine delivers the binary messages
`msgs` in order, for every sequence of `WebSocket.Read` calls with non-empty buffers:
each returned call has a nil error and takes its bytes from exactly one
message (what was delivered before it is whole messages `pre` plus a part `a`
of message `m`, the call delivers the next `n` bytes of `m`, with
`1 ≤ n ≤ min(len(buf), len(m) - len(a))`); the bytes delivered by all the
calls, concatenated, are a prefix of `m1 ++ ... ++ mk`, and are the whole of it
once that many bytes have been delivered; and a call blocks only when the
whole of it has been delivered. -/
theorem Read_message_stream (URL : String) (msgs : List (List Byte))
    (bufs : List (List Byte)) (hb : ∀ b ∈ bufs, 0 < b.length) :
    (∀ i o, (readCalls (newWebSocket URL (msgs.map binaryMessage)) bufs)[i]? = some (some o) →
      o.err = none ∧ ∃ buf, bufs[i]? = some buf ∧
        FromOneMessage msgs
          (delivered ((readCalls (newWebSocket URL (msgs.map binaryMessage)) bufs).take i))
          buf o.n o.buf) ∧
    delivered (readCalls (newWebSocket URL (msgs.map binaryMessage)) bufs) <+: msgs.flatten ∧
    ((delivered (readCalls (newWebSocket URL (msgs.map binaryMessage)) bufs)).length =
        msgs.flatten.length →
      delivered (readCalls (newWebSocket URL (msgs.map binaryMessage)) bufs) = msgs.flatten) ∧
    (none ∈ readCalls (newWebSocket URL (msgs.map binaryMessage)) bufs →
      delivered (readCalls (newWebSocket URL (msgs.map binaryMessage)) bufs) = msgs.flatten) := by
  obtain ⟨h1, h2, h3⟩ := readCalls_stream msgs bufs [] _ (newWebSocket_AtOffset URL msgs) hb
  simp only [List.nil_append] at h1 h2 h3
  exact ⟨h1, h2, fun hl => h2.eq_of_length hl, h3⟩

/-- C1 witness: messages `[1,2,3]` and `[4]` read with two-byte buffers come
back as `[1,2]`, `[3]`, `[4]`, and the fourth call blocks. -/
theorem Read_message_stream_witness :
    (∀ b ∈ [[(0 : Byte), 0], [0, 0], [0, 0], [0, 0]], 0 < b.length) ∧
    readCalls (newWebSocket "ws://example/echo" ([[1, 2, 3], [4]].map binaryMessage))
        [[0, 0], [0, 0], [0, 0], [0, 0]] =
      [some ⟨2, none, [1, 2]⟩, some ⟨1, none, [3, 0]⟩, some ⟨1, none, [4, 0]⟩, none] ∧
    delivered (readCalls (newWebSocket "ws://example/echo" ([[1, 2, 3], [4]].map binaryMessage))
        [[0, 0], [0, 0], [0, 0], [0, 0]]) <+: [[(1 : Byte), 2, 3], [4]].flatten :=
  ⟨by decide, by decide,
    (Read_message_stream "ws://example/echo" [[1, 2, 3], [4]] [[0, 0], [0, 0], [0, 0], [0, 0]]
      (by decide)).2.1⟩

/-! ## WebSocket.Read: text-typed messages -/

theorem readChunk_dropText (ws : WebSocket) (r : Reader) (buf : List Byte)
    (next : ReadOutcome) :
    readChunk (dropText ws) r buf (next.mapWs dropText) =
      (readChunk ws r buf next).mapWs dropText := by
  unfold readChunk
  rcases hr : r.Read buf with ⟨n, err, b1, r1⟩
  simp only []
  by_cases he : err = some GoError.EOF
  · by_cases hn : n < 1
    · simp [he, hn]
    · simp [he, hn, ReadOutcome.mapWs, dropText]
  · simp [he, ReadOutcome.mapWs, dropText]

theorem readLoop_dropText (ws : WebSocket) (buf : List Byte) (l : List EngineRead) :
    readLoop (dropText ws) buf (l.filter (fun m => decide (m.tp ≠ MessageText))) =
      (readLoop ws buf l).mapWs dropText := by
  induction l with
  | nil => rfl
  | cons m rest ih =>
    by_cases ht : m.tp = MessageText
    · simp only [List.filter, ht, ne_eq, not_true_eq_false, decide_False]
      rw [ih]
      simp [readLoop, ht]
    · have hf : (m :: rest).filter (fun m => decide (m.tp ≠ MessageText)) =
          m :: rest.filter (fun m => decide (m.tp ≠ MessageText)) := by
        simp [List.filter, ht]
      rw [hf]
      cases he : m.err with
      | some e => simp [readLoop, ht, he, ReadOutcome.mapWs, dropText]
      | none =>
        simp only [readLoop, ht, he, if_false]
        rw [ih]
        exact readChunk_dropText { ws with inbound := rest } _ buf _

theorem Read_dropText (ws : WebSocket) (buf : List Byte) :
    WebSocket.Read (dropText ws) buf = (WebSocket.Read ws buf).mapWs dropText := by
  by_cases hb : buf.length < 1
  · simp [WebSocket.Read, hb, ReadOutcome.mapWs]
  · obtain ⟨c, u, inb, s, rem, cl, wd, td⟩ := ws
    cases c with
    | true => simp [WebSocket.Read, hb, dropText, ReadOutcome.mapWs]
    | false =>
      cases rem with
      | none =>
        have h1 := readLoop_dropText ⟨false, u, inb, s, none, cl, wd, td⟩ buf inb
        simpa [WebSocket.Read, hb, dropText] using h1
      | some r =>
        have h1 := readLoop_dropText ⟨false, u, inb, s, none, cl, wd, td⟩ buf inb
        have h2 := readChunk_dropText ⟨false, u, inb, s, some r, cl, wd, td⟩ r buf
          (readLoop ⟨false, u, inb, s, none, cl, wd, td⟩ buf inb)
        rw [← h1] at h2
        simpa [WebSocket.Read, hb, dropText] using h2

theorem readCalls_dropText (bufs : List (List Byte)) :
    ∀ ws : WebSocket, readCalls (dropText ws) bufs = readCalls ws bufs := by
  induction bufs with
  | nil => intro ws; rfl
  | cons b bs ih =>
    intro ws
    simp only [readCalls, Read_dropText]
    cases h : WebSocket.Read ws b with
    | blocked => simp [ReadOutcome.mapWs]
    | returned n err b1 ws1 => simp [ReadOutcome.mapWs, ih ws1]

theorem dropText_interleaved (URL : String) (B1 T B2 : List Byte) :
    dropText (newWebSocket URL [binaryMessage B1, textMessage T, binaryMessage B2]) =
      newWebSocket URL ([B1, B2].map binaryMessage) := by
  simp [dropText, newWebSocket, binaryMessage, textMessage]

/-- C2: text-typed engine returns are invisible to `WebSocket.Read`. For every
connection state and every sequence of `WebSocket.Read` calls, what the calls return
(counts, errors, buffer contents, and whether a call blocks) is the same with
the text-typed returns removed from what the engine delivers. In particular,
with binary `B1`, a text message, then binary `B2`, calls with non-empty
buffers return the same as with `B1`, `B2` alone: no error, and bytes that
form a prefix of `B1 ++ B2`, all of it once that many bytes are delivered. -/
theorem Read_text_invisible :
    (∀ (ws : WebSocket) (bufs : List (List Byte)),
      readCalls (dropText ws) bufs = readCalls ws bufs) ∧
    (∀ (URL : String) (B1 T B2 : List Byte) (bufs : List (List Byte)),
      (∀ b ∈ bufs, 0 < b.length) →
      readCalls (newWebSocket URL [binaryMessage B1, textMessage T, binaryMessage B2]) bufs =
        readCalls (newWebSocket URL [binaryMessage B1, binaryMessage B2]) bufs ∧
      (∀ o, some o ∈
          readCalls (newWebSocket URL [binaryMessage B1, textMessage T, binaryMessage B2]) bufs →
        o.err = none) ∧
      delivered
          (readCalls (newWebSocket URL [binaryMessage B1, textMessage T, binaryMessage B2]) bufs)
        <+: B1 ++ B2 ∧
      ((delivered
          (readCalls (newWebSocket URL [binaryMessage B1, textMessage T, binaryMessage B2])
            bufs)).length = (B1 ++ B2).length →
        delivered
          (readCalls (newWebSocket URL [binaryMessage B1, textMessage T, binaryMessage B2]) bufs)
          = B1 ++ B2)) := by
  refine ⟨fun ws bufs => readCalls_dropText bufs ws, ?_⟩
  intro URL B1 T B2 bufs hb
  have heq : readCalls (newWebSocket URL [binaryMessage B1, textMessage T, binaryMessage B2]) bufs
      = readCalls (newWebSocket URL ([B1, B2].map binaryMessage)) bufs := by
    rw [← readCalls_dropText bufs, dropText_interleaved]
  obtain ⟨h1, h2, _⟩ :=
    readCalls_stream [B1, B2] bufs [] _ (newWebSocket_AtOffset URL [B1, B2]) hb
  have hfl : [B1, B2].flatten = B1 ++ B2 := by simp
  rw [hfl] at h2
  simp only [List.nil_append] at h1 h2
  rw [heq]
  refine ⟨rfl, ?_, h2, fun hl => h2.eq_of_length hl⟩
  intro o ho
  obtain ⟨i, hi⟩ := List.mem_iff_getElem?.mp ho
  exact (h1 i o hi).1

/-- C2 witness: `[1,2]`, a text message `[9]`, then `[3]`, read with one-byte
buffers, gives `1`, `2`, `3`. -/
theorem Read_text_invisible_witness :
    (∀ b ∈ [[(0 : Byte)], [0], [0]], 0 < b.length) ∧
    readCalls (newWebSocket "ws://example/echo"
        [binaryMessage [1, 2], textMessage [9], binaryMessage [3]]) [[0], [0], [0]] =
      [some ⟨1, none, [1]⟩, some ⟨1, none, [2]⟩, some ⟨1, none, [3]⟩] ∧
    delivered (readCalls (newWebSocket "ws://example/echo"
        [binaryMessage [1, 2], textMessage [9], binaryMessage [3]]) [[0], [0], [0]]) =
      [1, 2] ++ [3] :=
  ⟨by decide, by decide,
    (Read_text_invisible.2 "ws://example/echo" [1, 2] [9] [3] [[0], [0], [0]]
      (by decide)).2.2.2 (by decide)⟩

/-! ## WebSocket.Write -/

/-- C9: for every byte slice `buf`, whatever the engine's `Write` does,
`WebSocket.Write` hands the engine exactly one message, binary-typed, whose
payload is the whole of `buf`; the error it returns is the engine's, unchanged;
the count is `len(buf)` when that error is nil and `0` otherwise, never a
partial count; nothing else of the connection changes. -/
theorem Write_one_binary_message (wsWrite : Bool → Nat → List Byte → Option GoError)
    (ws : WebSocket) (buf : List Byte) :
    (ws.Write wsWrite buf).2.2 = { ws with sent := ws.sent ++ [(MessageBinary, buf)] } ∧
    (ws.Write wsWrite buf).2.1 = wsWrite ws.ctxDone MessageBinary buf ∧
    (ws.Write wsWrite buf).1 =
      (if wsWrite ws.ctxDone MessageBinary buf = none then buf.length else 0) := by
  unfold WebSocket.Write
  cases h : wsWrite ws.ctxDone MessageBinary buf <;> simp

/-! ## WebSocket.Close and the shutdown goroutine -/

theorem runConn_returns (evs : List ConnEvent) :
    ∀ ws : WebSocket, (∀ e ∈ (runConn ws evs).1, e = none) ∧
      (runConn ws evs).1.length = evs.count ConnEvent.closeCall := by
  induction evs with
  | nil => intro ws; simp [runConn]
  | cons ev evs ih =>
    intro ws
    cases ev with
    | closeCall =>
      obtain ⟨h1, h2⟩ := ih (WebSocket.Close ws).2
      refine ⟨?_, ?_⟩
      · intro e he
        simp only [runConn, List.mem_cons] at he
        rcases he with he | he
        · rw [he]; rfl
        · exact h1 e he
      · simp [runConn, h2]
    | watcherTurn =>
      obtain ⟨h1, h2⟩ := ih (shutdownWatcher ws)
      exact ⟨by simpa [runConn] using h1, by simpa [runConn] using h2⟩

theorem runConn_finished (evs : List ConnEvent) :
    ∀ ws : WebSocket, ws.watcherDone = true → (runConn ws evs).2.teardown = ws.teardown := by
  induction evs with
  | nil => intro ws _; rfl
  | cons ev evs ih =>
    intro ws hw
    cases ev with
    | closeCall => simpa [runConn, WebSocket.Close] using ih (WebSocket.Close ws).2 hw
    | watcherTurn =>
      have hs : shutdownWatcher ws = ws := by simp [shutdownWatcher, hw]
      simpa [runConn, hs] using ih ws hw

theorem runConn_cancelled (evs : List ConnEvent) :
    ∀ ws : WebSocket, ws.watcherDone = false → ws.ctxDone = true →
      (runConn ws evs).2.teardown =
        if ConnEvent.watcherTurn ∈ evs then ws.teardown ++ shutdownActions ws
        else ws.teardown := by
  induction evs with
  | nil => intro ws _ _; simp [runConn]
  | cons ev evs ih =>
    intro ws hw hc
    cases ev with
    | closeCall =>
      have hcl : (WebSocket.Close ws).2 = ws := by
        obtain ⟨c, u, inb, s, rem, cl, wd, td⟩ := ws
        simp only at hc
        simp [WebSocket.Close, hc]
      simpa [runConn, hcl] using ih ws hw hc
    | watcherTurn =>
      have hfin := runConn_finished evs (shutdownWatcher ws) (by simp [shutdownWatcher, hw, hc])
      simp only [runConn, hfin, List.mem_cons, true_or, if_true]
      simp [shutdownWatcher, hw, hc]

theorem runConn_open (evs : List ConnEvent) :
    ∀ ws : WebSocket, ws.watcherDone = false → ws.ctxDone = false →
      (ConnEvent.closeCall ∉ evs → (runConn ws evs).2.teardown = ws.teardown) ∧
      (∀ pre post, evs = pre ++ ConnEvent.closeCall :: post → ConnEvent.closeCall ∉ pre →
        (runConn ws evs).2.teardown =
          if ConnEvent.watcherTurn ∈ post then ws.teardown ++ shutdownActions ws
          else ws.teardown) := by
  induction evs with
  | nil =>
    intro ws _ _
    refine ⟨fun _ => rfl, ?_⟩
    intro pre post h
    simp at h
  | cons ev evs ih =>
    intro ws hw hc
    cases ev with
    | closeCall =>
      refine ⟨fun h => absurd (List.mem_cons_self _ _) h, ?_⟩
      intro pre post h hpre
      cases pre with
      | nil =>
        simp only [List.nil_append, List.cons.injEq, true_and] at h
        subst h
        have := runConn_cancelled evs (WebSocket.Close ws).2 hw rfl
        simpa [runConn, WebSocket.Close, shutdownActions] using this
      | cons p pre =>
        simp only [List.cons_append, List.cons.injEq] at h
        exact absurd (by rw [← h.1]; exact List.mem_cons_self _ _) hpre
    | watcherTurn =>
      have hs : shutdownWatcher ws = ws := by simp [shutdownWatcher, hw, hc]
      obtain ⟨ih1, ih2⟩ := ih ws hw hc
      refine ⟨?_, ?_⟩
      · intro h
        simpa [runConn, hs] using ih1 (fun hm => h (List.mem_cons_of_mem _ hm))
      · intro pre post h hpre
        cases pre with
        | nil => simp at h
        | cons p pre =>
          simp only [List.cons_append, List.cons.injEq] at h
          simpa [runConn, hs] using
            ih2 pre post h.2 (fun hm => hpre (List.mem_cons_of_mem _ hm))

theorem runConn_at_most_once (evs : List ConnEvent) :
    ∀ ws : WebSocket, ws.watcherDone = false →
      (runConn ws evs).2.teardown = ws.teardown ∨
      (runConn ws evs).2.teardown = ws.teardown ++ shutdownActions ws := by
  induction evs with
  | nil => intro ws _; left; rfl
  | cons ev evs ih =>
    intro ws hw
    cases ev with
    | closeCall =>
      have := runConn_cancelled evs (WebSocket.Close ws).2 hw rfl
      by_cases hm : ConnEvent.watcherTurn ∈ evs
      · right; simpa [runConn, WebSocket.Close, shutdownActions, hm] using this
      · left; simpa [runConn, WebSocket.Close, shutdownActions, hm] using this
    | watcherTurn =>
      by_cases hc : ws.ctxDone = true
      · have := runConn_cancelled (ConnEvent.watcherTurn :: evs) ws hw hc
        right; simpa using this
      · have hs : shutdownWatcher ws = ws := by simp [shutdownWatcher, hw, hc]
        simpa [runConn, hs] using ih ws hw

/-- C10: on a connection as `New` leaves it (context live, shutdown goroutine
waiting, nothing torn down), for every schedule of `Close` calls and turns of
the shutdown goroutine: every `Close` call returns nil; the teardown (close
the handle with the normal-closure status, then every cleanup function in
order) has run not at all or exactly once, however many `Close` calls there
are; it has not run while no `Close` has been called; and it has run exactly
once as soon as the goroutine has had a turn after the first `Close`. -/
theorem Close_teardown_once (ws : WebSocket) (hc : ws.ctxDone = false)
    (hw : ws.watcherDone = false) (ht : ws.teardown = []) (evs : List ConnEvent) :
    (∀ e ∈ (runConn ws evs).1, e = none) ∧
    (runConn ws evs).1.length = evs.count ConnEvent.closeCall ∧
    ((runConn ws evs).2.teardown = [] ∨
      (runConn ws evs).2.teardown =
        Teardown.wsClose StatusNormalClosure "Go context closed" ::
          ws.cleanup.map Teardown.cleanup) ∧
    (ConnEvent.closeCall ∉ evs → (runConn ws evs).2.teardown = []) ∧
    (∀ pre post, evs = pre ++ ConnEvent.closeCall :: post → ConnEvent.closeCall ∉ pre →
      (runConn ws evs).2.teardown =
        if ConnEvent.watcherTurn ∈ post then
          Teardown.wsClose StatusNormalClosure "Go context closed" ::
            ws.cleanup.map Teardown.cleanup
        else []) := by
  obtain ⟨h1, h2⟩ := runConn_returns evs ws
  obtain ⟨h3, h4⟩ := runConn_open evs ws hw hc
  have h5 := runConn_at_most_once evs ws hw
  rw [ht] at h3 h4 h5
  simp only [List.nil_append] at h4 h5
  exact ⟨h1, h2, h5, h3, h4⟩

/-- C10 witness: three `Close` calls around two turns of the goroutine, with
two cleanup functions registered. -/
theorem Close_teardown_once_witness :
    ({ newWebSocket "ws://example/echo" [] with cleanup := [0, 1] } : WebSocket).ctxDone = false ∧
    runConn { newWebSocket "ws://example/echo" [] with cleanup := [0, 1] }
        [ConnEvent.watcherTurn, ConnEvent.closeCall, ConnEvent.closeCall, ConnEvent.watcherTurn,
          ConnEvent.closeCall, ConnEvent.watcherTurn] =
      ([none, none, none],
        { newWebSocket "ws://example/echo" [] with
          cleanup := [0, 1], ctxDone := true, watcherDone := true,
          teardown := [Teardown.wsClose 1000 "Go context closed", Teardown.cleanup 0,
            Teardown.cleanup 1] }) ∧
    (∀ e ∈ (runConn { newWebSocket "ws://example/echo" [] with cleanup := [0, 1] }
        [ConnEvent.watcherTurn, ConnEvent.closeCall, ConnEvent.closeCall, ConnEvent.watcherTurn,
          ConnEvent.closeCall, ConnEvent.watcherTurn]).1, e = none) :=
  ⟨rfl, by decide,
    (Close_teardown_once { newWebSocket "ws://example/echo" [] with cleanup := [0, 1] }
      rfl rfl rfl
      [ConnEvent.watcherTurn, ConnEvent.closeCall, ConnEvent.closeCall, ConnEvent.watcherTurn,
        ConnEvent.closeCall, ConnEvent.watcherTurn]).1⟩

/-! ## Dialing -/

/-- C6: `Dialer.DialContext` returns the nil connection and a non-nil error
without calling `New` exactly when `network` is not `"websocket"` or `address`
starts with neither `"ws://"` nor `"wss://"`. The network is checked first and
its error message carries the network value formatted with `%q`; a bad address
under network `"websocket"` gives the invalid-address error. Otherwise `New`
is called once with the context, the address and the dialer's options, and its
connection and error are what is returned. `Dial`, `DialContext`,
`Dialer.Dial` and `GRPCDialer` go through `Dialer.DialContext`. -/
theorem DialContext_validation (quote : String → String)
    (New : Context → String → List DialOption → Option WebSocket × Option GoError)
    (d : Dialer) (ctx : Context) (network address : String) :
    (((d.DialContext quote New ctx network address).conn = NetConn.nil ∧
        (d.DialContext quote New ctx network address).err ≠ none ∧
        (d.DialContext quote New ctx network address).newCalls = []) ↔
      (network ≠ "websocket" ∨
        ¬ (HasPrefix address "ws://" = true ∨ HasPrefix address "wss://" = true))) ∧
    (network ≠ "websocket" →
      d.DialContext quote New ctx network address =
        ⟨NetConn.nil,
          some (GoError.other ("Invalid network: " ++ quote network ++
            "; Details: Only \"websocket\" network is supported")), []⟩) ∧
    (network = "websocket" →
      ¬ (HasPrefix address "ws://" = true ∨ HasPrefix address "wss://" = true) →
      d.DialContext quote New ctx network address =
        ⟨NetConn.nil, some (GoError.other invalidAddress), []⟩) ∧
    (network = "websocket" →
      (HasPrefix address "ws://" = true ∨ HasPrefix address "wss://" = true) →
      d.DialContext quote New ctx network address =
        ⟨NetConn.ofWebSocket (New ctx address d.opts).1, (New ctx address d.opts).2,
          [(ctx, address, d.opts)]⟩) ∧
    d.Dial quote New network address = d.DialContext quote New Background network address ∧
    DialContext quote New ctx network address =
      Dialer.DialContext quote New ⟨[]⟩ ctx network address ∧
    Dial quote New network address =
      Dialer.DialContext quote New ⟨[]⟩ Background network address ∧
    GRPCDialer quote New ctx address =
      Dialer.DialContext quote New ⟨[]⟩ ctx "websocket" address := by
  refine ⟨?_, ?_, ?_, ?_, rfl, rfl, rfl, rfl⟩
  · by_cases hn : network = "websocket"
    · cases h1 : HasPrefix address "ws://" <;> cases h2 : HasPrefix address "wss://" <;>
        simp [Dialer.DialContext, hn, h1, h2]
    · simp [Dialer.DialContext, hn]
  · intro hn
    simp [Dialer.DialContext, hn, invalidNetwork]
  · intro hn hp
    simp only [not_or, Bool.not_eq_true] at hp
    simp [Dialer.DialContext, hn, hp.1, hp.2]
  · intro hn hp
    rcases hp with hp | hp <;> simp [Dialer.DialContext, hn, hp]

/-- C6 witness: network `"tcp"` gives the invalid-network error naming
`"tcp"` in quotes, and never reaches `New`. -/
theorem DialContext_validation_witness :
    "tcp" ≠ "websocket" ∧
    Dialer.DialContext (fun s => "\"" ++ s ++ "\"")
        (fun _ _ _ => (none, some (GoError.other "handshake failed"))) ⟨[]⟩ Background
        "tcp" "ws://example/echo" =
      ⟨NetConn.nil,
        some (GoError.other
          ("Invalid network: " ++ (fun s => "\"" ++ s ++ "\"") "tcp" ++
            "; Details: Only \"websocket\" network is supported")), []⟩ :=
  ⟨by decide,
    (DialContext_validation (fun s => "\"" ++ s ++ "\"")
      (fun _ _ _ => (none, some (GoError.other "handshake failed"))) ⟨[]⟩ Background
      "tcp" "ws://example/echo").2.1 (by decide)⟩

/-! ## The listener -/

/-- C7, the code at a failed upgrade: on a fresh listener, a request whose
upgrade fails is logged, and the handler does not return: with no `return`
after the log it goes on to `websocket.NetConn` with the nil handle and
panics there. Nothing has been sent on `acceptCh`, and an `Accept` on the
listener left behind waits. A request whose upgrade succeeds is enqueued and
the handler returns. -/
theorem ServeHTTP_failed_upgrade :
    (∀ pick : Nat,
      WebSockListener.ServeHTTP NewWebSocketListener
          ⟨"192.0.2.1:4000", false, (none, some (GoError.other "upgrade failed"))⟩ pick =
        ServeOutcome.panicked { NewWebSocketListener with
          effects := [ListenerEffect.logAcceptError "192.0.2.1:4000"
            (GoError.other "upgrade failed")] }) ∧
    (∀ (pick : Nat) (wsl1 : WebSockListener),
      WebSockListener.ServeHTTP NewWebSocketListener
          ⟨"192.0.2.1:4000", false, (none, some (GoError.other "upgrade failed"))⟩ pick ≠
        ServeOutcome.returned wsl1) ∧
    (∀ pick : Nat,
      WebSockListener.Accept
          { NewWebSocketListener with
            effects := [ListenerEffect.logAcceptError "192.0.2.1:4000"
              (GoError.other "upgrade failed")] } pick = none) ∧
    (∀ pick : Nat,
      WebSockListener.ServeHTTP NewWebSocketListener
          ⟨"192.0.2.1:4000", false, (some 1, none)⟩ pick =
        ServeOutcome.returned { NewWebSocketListener with
          acceptCh := [⟨some 1, MessageBinary⟩] }) := by
  have hp : ∀ pick : Nat,
      WebSockListener.ServeHTTP NewWebSocketListener
          ⟨"192.0.2.1:4000", false, (none, some (GoError.other "upgrade failed"))⟩ pick =
        ServeOutcome.panicked { NewWebSocketListener with
          effects := [ListenerEffect.logAcceptError "192.0.2.1:4000"
            (GoError.other "upgrade failed")] } := by
    intro pick
    simp [WebSockListener.ServeHTTP, serveUpgrade, websocketNetConn, NewWebSocketListener]
  refine ⟨hp, ?_, ?_, ?_⟩
  · intro pick wsl1 h
    rw [hp pick] at h
    cases h
  · intro pick
    simp [WebSockListener.Accept, NewWebSocketListener]
  · intro pick
    simp [WebSockListener.ServeHTTP, serveUpgrade, websocketNetConn, serveEnqueue, readyCases,
      NewWebSocketListener, Nat.mod_one]

/-- C8, the code in the race: a handler passes the shutdown check and upgrades
handle 1; the listener is closed and the drain goroutine runs to its end on
the empty queue; the handler then reaches its `select` with the send and the
listener-done case both able to proceed, and the send is taken. The connection
sits in `acceptCh` with the drain finished and nothing closed, and `Accept`
can return it. -/
theorem ServeHTTP_enqueue_after_cancel :
    serveUpgrade NewWebSocketListener ⟨"192.0.2.1:4000", false, (some 1, none)⟩ =
      Upgrade.pending NewWebSocketListener (some 1) ⟨some 1, MessageBinary⟩ ∧
    drainTask (WebSockListener.Close NewWebSocketListener).2 =
      { ctxDone := true, acceptCh := [], drainDone := true, effects := [] } ∧
    readyCases { ctxDone := true, acceptCh := [], drainDone := true, effects := [] } false =
      [SelectCase.send, SelectCase.listenerDone] ∧
    serveEnqueue (drainTask (WebSockListener.Close NewWebSocketListener).2) false 0 (some 1)
        ⟨some 1, MessageBinary⟩ =
      some { ctxDone := true, acceptCh := [⟨some 1, MessageBinary⟩], drainDone := true,
             effects := [] } ∧
    drainTask { ctxDone := true, acceptCh := [⟨some 1, MessageBinary⟩], drainDone := true,
                effects := [] } =
      { ctxDone := true, acceptCh := [⟨some 1, MessageBinary⟩], drainDone := true,
        effects := [] } ∧
    WebSockListener.Accept
        { ctxDone := true, acceptCh := [⟨some 1, MessageBinary⟩], drainDone := true,
          effects := [] } 0 =
      some ((some ⟨some 1, MessageBinary⟩, none),
        { ctxDone := true, acceptCh := [], drainDone := true, effects := [] }) := by
  refine ⟨by decide, by decide, by decide, by decide, by decide, by decide⟩

end Wasmws
